import Mathlib

/-!
Verification of the output-parsing and result-normalisation layer of
python-zxing (`zxing/__init__.py`), shallowly embedded in Lean.

Python byte strings are modelled as `List Nat` (one entry per byte,
values below 256), Python `str` values as Lean `String` / `List Char`,
and Python exceptions as the `PyErr` error type in `Except`.
Floating point numbers never influence any verified property, so the
result points keep the matched numeric texts (validated against
Python's `float()` grammar) instead of IEEE values.
-/

set_option autoImplicit false

namespace Zxing

/-- ASCII whitespace bytes: space, tab, linefeed, carriage return, vertical
tab, form feed.  This is the set recognised by `bytes.strip`, by `\s` in
byte-string regexes, and by `bytes.fromhex` (CPython 3.11+). -/
def isAsciiWs (b : Nat) : Bool :=
  b == 32 || b == 9 || b == 10 || b == 13 || b == 11 || b == 12

/-- ASCII decimal digit byte. -/
def isDigitByte (b : Nat) : Bool := 48 ≤ b && b ≤ 57

/-- ASCII hexadecimal digit byte (either case). -/
def isHexByte (b : Nat) : Bool :=
  (48 ≤ b && b ≤ 57) || (97 ≤ b && b ≤ 102) || (65 ≤ b && b ≤ 70)

/-- Numeric value of a hexadecimal digit byte. -/
def hexVal (b : Nat) : Nat :=
  if b ≤ 57 then b - 48 else if b ≤ 70 then b - 55 else b - 87

/-- UTF-8 encoding of one character. -/
def utf8EncodeChar (c : Char) : List Nat :=
  let n := c.toNat
  if n < 128 then [n]
  else if n < 2048 then [192 + n / 64, 128 + n % 64]
  else if n < 65536 then [224 + n / 4096, 128 + (n / 64) % 64, 128 + n % 64]
  else [240 + n / 262144, 128 + (n / 4096) % 64, 128 + (n / 64) % 64, 128 + n % 64]

/-- UTF-8 encoding of a string, as Python `str.encode()`. -/
def utf8Encode (s : String) : List Nat :=
  (s.data.map utf8EncodeChar).flatten

/-- Continuation byte test for UTF-8 decoding. -/
def isCont (b : Nat) : Bool := 128 ≤ b && b ≤ 191

/-- Strict UTF-8 decoding of a byte list, as Python `bytes.decode()` with the
default strict error handler: `none` models `UnicodeDecodeError`.  Overlong
encodings, surrogates and values above U+10FFFF are rejected. -/
def utf8DecodeChars : List Nat → Option (List Char)
  | [] => some []
  | b :: rest =>
    if b < 128 then (utf8DecodeChars rest).map (Char.ofNat b :: ·)
    else if b < 194 then none
    else if b < 224 then
      match rest with
      | b2 :: rest2 =>
        if isCont b2 then
          (utf8DecodeChars rest2).map (Char.ofNat ((b - 192) * 64 + (b2 - 128)) :: ·)
        else none
      | _ => none
    else if b < 240 then
      match rest with
      | b2 :: b3 :: rest3 =>
        if isCont b2 && isCont b3 then
          let n := (b - 224) * 4096 + (b2 - 128) * 64 + (b3 - 128)
          if n < 2048 || (55296 ≤ n && n ≤ 57343) then none
          else (utf8DecodeChars rest3).map (Char.ofNat n :: ·)
        else none
      | _ => none
    else if b < 245 then
      match rest with
      | b2 :: b3 :: b4 :: rest4 =>
        if isCont b2 && isCont b3 && isCont b4 then
          let n := (b - 240) * 262144 + (b2 - 128) * 4096 + (b3 - 128) * 64 + (b4 - 128)
          if n < 65536 || n > 1114111 then none
          else (utf8DecodeChars rest4).map (Char.ofNat n :: ·)
        else none
      | _ => none
    else none

/-- Strict UTF-8 decoding to a `String`. -/
def utf8Decode (l : List Nat) : Option String :=
  (utf8DecodeChars l).map fun cs => ⟨cs⟩

/-- Python errors raised (or slipped into) by the code under verification. -/
inductive PyErr where
  /-- `ValueError` (also covers its subclass raised by `bytes.fromhex` and
  `float`). -/
  | valueError : PyErr
  /-- `TypeError`. -/
  | typeError : PyErr
  /-- `UnicodeDecodeError` from a strict `bytes.decode()` or the
  `unicode_escape` codec. -/
  | unicodeDecodeError : PyErr
  /-- `NameError`: the code referenced an undefined variable of this name. -/
  | nameError (varname : String) : PyErr
  /-- `BarCodeReaderException(message, filename)`. -/
  | readerError (message : String) (filename : String) : PyErr
  /-- `KeyError` from a dict lookup. -/
  | keyError (key : String) : PyErr
  /-- `IndexError` from `file_results[-1]` on an empty list. -/
  | indexError : PyErr
  deriving Repr, DecidableEq

/-- The canonical result record (`class BarCode`), with each optional field
`none` where the Python attribute is `None`.  `raw_bits` is a byte list and
`points` keeps the matched coordinate texts. -/
structure BarCode where
  uri      : Option String
  format   : Option String
  type     : Option String
  raw      : Option String
  parsed   : Option String
  raw_bits : Option (List Nat)
  points   : Option (List (String × String))
  deriving Repr, DecidableEq

/-- `BarCode.__bool__`: `bool(self.raw)`, false for `None` and for the empty
string. -/
def BarCode.toBool (bc : BarCode) : Bool :=
  match bc.raw with
  | none => false
  | some r => r ≠ ""

/-! ### `urllib.parse.urlparse` and `urllib.parse.unquote_plus`

Only the behaviour reachable from `file_uri_to_path` is modelled: the
six components of `urlparse` (CPython's `urlsplit` plus parameter
splitting) and percent-plus decoding.  The bracketed-host `ValueError`
of `urlsplit` is not modelled: it can only fire when the network
location is non-empty, in which case `file_uri_to_path` raises
`ValueError` anyway, so `BarCode.path` is unaffected. -/

/-- Characters allowed in a URL scheme after the initial letter. -/
def isSchemeChar (c : Char) : Bool :=
  c.isAlphanum || c == '+' || c == '-' || c == '.'

/-- The result record of `urllib.parse.urlparse`. -/
structure UrlParseResult where
  scheme   : String
  netloc   : String
  path     : String
  params   : String
  query    : String
  fragment : String
  deriving Repr, DecidableEq

/-- Split `url` at the first character satisfying `p`: returns the part
before it and the part after it, or `none` when no such character exists. -/
def splitAtFirst (p : Char → Bool) (cs : List Char) : Option (List Char × List Char) :=
  let before := cs.takeWhile (fun c => !p c)
  match cs.drop before.length with
  | [] => none
  | _ :: after => some (before, after)

/-- CPython `urllib.parse._splitparams`: split `;params` off the last path
segment. -/
def splitParams (cs : List Char) : List Char × List Char :=
  if cs.contains '/' then
    let afterSlash := (cs.reverse.takeWhile (fun c => c != '/')).reverse
    match splitAtFirst (fun c => c == ';') afterSlash with
    | none => (cs, [])
    | some (seg, ps) => (cs.take (cs.length - afterSlash.length) ++ seg, ps)
  else
    match splitAtFirst (fun c => c == ';') cs with
    | none => (cs, [])
    | some (before, ps) => (before, ps)

/-- `urllib.parse.urlparse(s)` (scheme, netloc, path, params, query,
fragment).  Follows CPython: tab, carriage return and linefeed are removed
from the input; the scheme requires a leading ASCII letter followed by
scheme characters before the first colon and is lowercased; a `//` prefix
introduces the network location (up to the first of `/?#`); the fragment is
split at the first `#`, then the query at the first `?`; finally parameters
are split off the last path segment at `;`. -/
def urlparse (s : String) : UrlParseResult :=
  let cs := s.data.filter fun c => c != Char.ofNat 9 && c != Char.ofNat 13 && c != Char.ofNat 10
  let colonIdx := (cs.takeWhile (fun c => c != ':')).length
  let hasScheme :=
    decide (0 < colonIdx ∧ colonIdx < cs.length) &&
    (match cs.head? with | some c => c.isAlpha && c.toNat < 128 | none => false) &&
    ((cs.take colonIdx).drop 1).all isSchemeChar
  let scheme : List Char := if hasScheme then (cs.take colonIdx).map Char.toLower else []
  let rest : List Char := if hasScheme then cs.drop (colonIdx + 1) else cs
  let hasNetloc := decide (rest.take 2 = ['/', '/'])
  let netloc : List Char :=
    if hasNetloc then (rest.drop 2).takeWhile (fun c => c != '/' && c != '?' && c != '#') else []
  let rest : List Char := if hasNetloc then (rest.drop 2).drop netloc.length else rest
  let (rest, fragment) :=
    match splitAtFirst (fun c => c == '#') rest with
    | some (before, after) => (before, after)
    | none => (rest, [])
  let (rest, query) :=
    match splitAtFirst (fun c => c == '?') rest with
    | some (before, after) => (before, after)
    | none => (rest, [])
  let (path, params) :=
    if rest.contains ';' then splitParams rest else (rest, [])
  ⟨⟨scheme⟩, ⟨netloc⟩, ⟨path⟩, ⟨params⟩, ⟨query⟩, ⟨fragment⟩⟩

/-- UTF-8 decoding with `errors='replace'`: an undecodable byte yields
U+FFFD and decoding resynchronises at the next byte.  (CPython replaces a
maximal invalid subpart per U+FFFD; the difference is invisible to every
property proved here, which only decodes valid sequences.) -/
def utf8ReplaceDecode (fuel : Nat) (l : List Nat) : List Char :=
  match fuel, l with
  | 0, _ => []
  | _, [] => []
  | fuel + 1, b :: rest =>
    match utf8DecodeChars (b :: rest) with
    | some cs => cs
    | none =>
      if b < 128 then Char.ofNat b :: utf8ReplaceDecode fuel rest
      else if 194 ≤ b && b < 224 then
        match rest with
        | b2 :: rest2 =>
          if isCont b2 then Char.ofNat ((b - 192) * 64 + (b2 - 128)) :: utf8ReplaceDecode fuel rest2
          else Char.ofNat 65533 :: utf8ReplaceDecode fuel rest
        | [] => [Char.ofNat 65533]
      else Char.ofNat 65533 :: utf8ReplaceDecode fuel rest

/-- `urllib.parse.unquote_to_bytes` on an ASCII chunk: split at `%`; a
chunk opening with two hexadecimal digits contributes that byte, otherwise
the `%` stays literal. -/
def unquoteToBytesChunks : List (List Char) → List Nat
  | [] => []
  | chunk :: rest =>
    (match chunk with
     | c1 :: c2 :: tail =>
       if isHexByte c1.toNat && isHexByte c2.toNat then
         (hexVal c1.toNat * 16 + hexVal c2.toNat) :: tail.map Char.toNat
       else 37 :: chunk.map Char.toNat
     | _ => 37 :: chunk.map Char.toNat) ++ unquoteToBytesChunks rest

/-- Split a character list at every `%`. -/
def splitPercent : List Char → List (List Char)
  | [] => [[]]
  | '%' :: rest => [] :: splitPercent rest
  | c :: rest =>
    match splitPercent rest with
    | [] => [[c]]
    | chunk :: chunks => (c :: chunk) :: chunks

/-- `urllib.parse.unquote_to_bytes` on ASCII text. -/
def unquoteToBytes (cs : List Char) : List Nat :=
  match splitPercent cs with
  | [] => []
  | first :: chunks => first.map Char.toNat ++ unquoteToBytesChunks chunks

/-- ASCII character test. -/
def isAsciiChar (c : Char) : Bool := c.toNat < 128

/-- `urllib.parse.unquote(s, errors='replace')`: the string is split into
maximal ASCII and non-ASCII runs (CPython's `_asciire`); ASCII runs are
percent-decoded to bytes and UTF-8 decoded with replacement, non-ASCII
runs pass through unchanged. -/
def unquoteRuns (fuel : Nat) (cs : List Char) : List Char :=
  match fuel, cs with
  | 0, _ => []
  | _, [] => []
  | fuel + 1, c :: rest =>
    if isAsciiChar c then
      let run := c :: rest.takeWhile isAsciiChar
      let tail := rest.drop (run.length - 1)
      let bytes := unquoteToBytes run
      utf8ReplaceDecode (bytes.length + 1) bytes ++ unquoteRuns fuel tail
    else
      let run := c :: rest.takeWhile (fun d => !isAsciiChar d)
      run ++ unquoteRuns fuel (rest.drop (run.length - 1))

/-- `urllib.parse.unquote` with the default UTF-8/replace handlers. -/
def unquote (s : String) : String :=
  if s.data.contains '%' then ⟨unquoteRuns (s.data.length + 1) s.data⟩ else s

/-- `urllib.parse.unquote_plus`: replace `+` with a space, then unquote. -/
def unquote_plus (s : String) : String :=
  unquote ⟨s.data.map fun c => if c == '+' then ' ' else c⟩

/-- `file_uri_to_path(s)` (`zxing/__init__.py:35`): raise `ValueError`
unless the parsed URI has scheme `file` and empty netloc, query and
fragment; otherwise percent-plus decode the path component. -/
def file_uri_to_path (s : String) : Except PyErr String :=
  let uri := urlparse s
  if (uri.scheme, uri.netloc, uri.query, uri.fragment) = ("file", "", "", "") then
    .ok (unquote_plus uri.path)
  else
    .error .valueError

/-- `BarCode.path` (`zxing/__init__.py:330`): `file_uri_to_path(self.uri)`
with `ValueError` swallowed to `None`.  A `None` uri would reach
`urlparse(None)` and raise `TypeError`, which the `except ValueError`
clause does not catch. -/
def BarCode.path (bc : BarCode) : Except PyErr (Option String) :=
  match bc.uri with
  | none => .error .typeError
  | some u =>
    match file_uri_to_path u with
    | .ok p => .ok (some p)
    | .error _ => .ok none

/-! ### `BarCode.parse_zxing` (`zxing/__init__.py:275`)

The CommandLineRunner output is bytes; `splitlines(True)` keeps line
endings, and a `bytes` object splits only at `\n`, `\r` and `\r\n`. -/

/-- `bytes.splitlines(keepends=True)`: a `bytes` object splits only at
`\n`, `\r` and `\r\n`. -/
def splitlinesKeep : List Nat → List (List Nat)
  | [] => []
  | b :: rest =>
    if b = 10 then [10] :: splitlinesKeep rest
    else if b = 13 then
      match rest with
      | [] => [[13]]
      | b2 :: rest2 =>
        if b2 = 10 then [13, 10] :: splitlinesKeep rest2
        else [13] :: splitlinesKeep (b2 :: rest2)
    else
      match splitlinesKeep rest with
      | [] => [[b]]
      | line :: lines => (b :: line) :: lines

/-- `bytes.strip()` with no argument: remove ASCII whitespace from both
ends. -/
def stripBytes (l : List Nat) : List Nat :=
  ((l.dropWhile isAsciiWs).reverse.dropWhile isAsciiWs).reverse

/-- `l.rsplit(b':', 1)[0]`: everything before the last colon, or all of `l`
when it has no colon. -/
def rsplitColonBefore (l : List Nat) : List Nat :=
  if l.contains 58 then ((l.reverse.dropWhile (fun b => b != 58)).drop 1).reverse else l

/-- Matcher for `\s*([^X]+)X` (`X` the byte `sep`) with the backtracking
behaviour of CPython regexes: the group is the text strictly between the
current position and the first `sep`, with its leading whitespace consumed
by `\s*` — except that when that leaves the group empty, `\s*` backs off
one character so the group becomes the final whitespace character.
Returns the group and the remainder after `sep`. -/
def wsGroupSep (sep : Nat) (l : List Nat) : Option (List Nat × List Nat) :=
  let between := l.takeWhile (fun b => b != sep)
  match l.drop between.length with
  | [] => none
  | _ :: rest =>
    match between.dropWhile isAsciiWs with
    | [] =>
      match between.getLast? with
      | none => none
      | some b => some ([b], rest)
    | g => some (g, rest)

/-- Matcher for `re.match(rb"(\S+) \(format:\s*([^,]+),\s*type:\s*([^)]+)\)", l)`
(`zxing/__init__.py:286`); returns the three groups.  Every quantifier in
the pattern is determined after at most the one-step backtrack handled by
`wsGroupSep`, so a direct scan is equivalent. -/
def matchHeader (l : List Nat) : Option (List Nat × List Nat × List Nat) :=
  let g1 := l.takeWhile (fun b => !isAsciiWs b)
  if g1.isEmpty then none
  else
    let rest1 := l.drop g1.length
    if (utf8Encode " (format:").isPrefixOf rest1 then
      match wsGroupSep 44 (rest1.drop 9) with
      | none => none
      | some (g2, rest2) =>
        let rest3 := rest2.dropWhile isAsciiWs
        if (utf8Encode "type:").isPrefixOf rest3 then
          match wsGroupSep 41 (rest3.drop 5) with
          | none => none
          | some (g3, _) => some (g1, g2, g3)
        else none
    else none

/-- Helper for byte-regex scans: strip an exact ASCII literal. -/
def stripLit (s : String) (l : List Nat) : Option (List Nat) :=
  if (utf8Encode s).isPrefixOf l then some (l.drop (utf8Encode s).length) else none

/-- Helper for byte-regex scans: `\s+`. -/
def ws1 (l : List Nat) : Option (List Nat) :=
  match l with
  | b :: rest => if isAsciiWs b then some (rest.dropWhile isAsciiWs) else none
  | [] => none

/-- Helper for byte-regex scans: `\d+`. -/
def digits1 (l : List Nat) : Option (List Nat) :=
  match l with
  | b :: rest => if isDigitByte b then some (rest.dropWhile isDigitByte) else none
  | [] => none

/-- `re.match(rb"Found\s+\d+\s+result\s+points?", l)` viewed as a boolean:
with `re.match` a prefix match suffices, so the trailing optional `s?`
never constrains anything. -/
def matchesPointsMarker (l : List Nat) : Bool :=
  (do
    let r1 ← stripLit "Found" l
    let r2 ← ws1 r1
    let r3 ← digits1 r2
    let r4 ← ws1 r3
    let r5 ← stripLit "result" r4
    let r6 ← ws1 r5
    let _ ← stripLit "point" r6
    some ()).isSome

/-- Byte of the character class `[-\d.]`. -/
def isFloatByte (b : Nat) : Bool := b == 45 || b == 46 || isDigitByte b

/-- `re.match(rb"\s*Point\s*\d+:\s*\(([-\d.]+),([-\d.]+)\)", l)`
(`zxing/__init__.py:309`); returns the two groups.  The character class
`[-\d.]` excludes whitespace and both delimiters, so the scan is
deterministic. -/
def matchPointLine (l : List Nat) : Option (List Nat × List Nat) := do
  let r1 := l.dropWhile isAsciiWs
  let r2 ← stripLit "Point" r1
  let r3 := r2.dropWhile isAsciiWs
  let r4 ← digits1 r3
  let r5 ← stripLit ":" r4
  let r6 := r5.dropWhile isAsciiWs
  let r7 ← stripLit "(" r6
  let g1 := r7.takeWhile isFloatByte
  if g1.isEmpty then none
  else
    let r8 ← stripLit "," (r7.drop g1.length)
    let g2 := r8.takeWhile isFloatByte
    if g2.isEmpty then none
    else
      let _ ← stripLit ")" (r8.drop g2.length)
      some (g1, g2)

/-- Whether Python `float()` accepts this text drawn from the character
class `[-\d.]`: an optional leading minus sign, then digits and at most
one dot, with at least one digit and no further minus sign. -/
def pyFloatOk (l : List Nat) : Bool :=
  let l1 := match l with | 45 :: rest => rest | _ => l
  !l1.isEmpty && l1.all (fun b => isDigitByte b || b == 46) &&
    l1.countP (fun b => b == 46) ≤ 1 && l1.any isDigitByte

/-- ASCII bytes to a string (used for regex groups drawn from ASCII-only
character classes). -/
def asciiStr (l : List Nat) : String := ⟨l.map Char.ofNat⟩

/-- `bytes.fromhex` on the characters of its string argument (CPython
3.11+ semantics: any ASCII whitespace may appear between byte pairs, and
each byte is two adjacent hexadecimal digits). -/
def fromhexChars : List Char → Option (List Nat)
  | [] => some []
  | c :: rest =>
    if isAsciiWs c.toNat then fromhexChars rest
    else if isHexByte c.toNat then
      match rest with
      | c2 :: rest2 =>
        if isHexByte c2.toNat then
          (fromhexChars rest2).map ((hexVal c.toNat * 16 + hexVal c2.toNat) :: ·)
        else none
      | [] => none
    else none

/-- `bytes.fromhex(s)`: `none` models its `ValueError`. -/
def fromhex (s : String) : Option (List Nat) := fromhexChars s.data

/-- `class CLROutputBlock(Enum)` (`zxing/__init__.py:230`). -/
inductive CLROutputBlock where
  | UNKNOWN | RAW | PARSED | POINTS | RAW_BITS
  deriving Repr, DecidableEq

/-- The loop state of `BarCode.parse_zxing`: the current block plus the
header fields (decoded as soon as the header regex matches) and the three
byte accumulators and point list. -/
structure ZxState where
  block    : CLROutputBlock
  uri      : Option String
  format   : Option String
  type     : Option String
  raw      : List Nat
  parsed   : List Nat
  raw_bits : List Nat
  points   : List (String × String)
  deriving Repr, DecidableEq

/-- Initial `parse_zxing` state. -/
def zxInit : ZxState := ⟨.UNKNOWN, none, none, none, [], [], [], []⟩

/-- Outcome of one iteration of the `parse_zxing` line loop. -/
inductive ZxStep where
  /-- Continue looping with this state. -/
  | cont (st : ZxState)
  /-- The early `return` of the no-barcode branch. -/
  | ret (bc : BarCode)
  /-- An exception escaped the loop body. -/
  | err (e : PyErr)
  deriving Repr, DecidableEq

/-- One iteration of the `for l in zxing_output.splitlines(True)` loop of
`parse_zxing` (`zxing/__init__.py:282`). -/
def zxStep (st : ZxState) (l : List Nat) : ZxStep :=
  match st.block with
  | .UNKNOWN =>
    if (utf8Encode ": No barcode found").isSuffixOf (stripBytes l) then
      match utf8Decode (rsplitColonBefore l) with
      | some u => .ret ⟨some u, none, none, none, none, none, none⟩
      | none => .err .unicodeDecodeError
    else
      match matchHeader l with
      | some (g1, g2, g3) =>
        match utf8Decode g1, utf8Decode g2, utf8Decode g3 with
        | some u, some f, some t => .cont { st with uri := some u, format := some f, type := some t }
        | _, _, _ => .err .unicodeDecodeError
      | none =>
        if (utf8Encode "Raw result:").isPrefixOf l then .cont { st with block := .RAW }
        else .cont st
  | .RAW =>
    if (utf8Encode "Parsed result:").isPrefixOf l then .cont { st with block := .PARSED }
    else .cont { st with raw := st.raw ++ l }
  | .PARSED =>
    if (utf8Encode "Raw bits:").isPrefixOf l then .cont { st with block := .RAW_BITS }
    else if matchesPointsMarker l then .cont { st with block := .POINTS }
    else .cont { st with parsed := st.parsed ++ l }
  | .RAW_BITS =>
    if matchesPointsMarker l then .cont { st with block := .POINTS }
    else .cont { st with raw_bits := st.raw_bits ++ l }
  | .POINTS =>
    match matchPointLine l with
    | some (g1, g2) =>
      if pyFloatOk g1 && pyFloatOk g2 then
        .cont { st with points := st.points ++ [(asciiStr g1, asciiStr g2)] }
      else .err .valueError
    | none => .cont st

/-- The full `parse_zxing` line loop. -/
def zxRun (st : ZxState) : List (List Nat) → ZxStep
  | [] => .cont st
  | l :: rest =>
    match zxStep st l with
    | .cont st2 => zxRun st2 rest
    | r => r

/-- The epilogue of `parse_zxing` (`zxing/__init__.py:313`): each
accumulator drops its final byte, `parsed` and `raw` are strictly UTF-8
decoded, `raw_bits` is UTF-8 decoded then hex decoded, in source order. -/
def zxFinal (st : ZxState) : Except PyErr BarCode :=
  match utf8Decode st.parsed.dropLast with
  | none => .error .unicodeDecodeError
  | some parsedS =>
    match utf8Decode st.raw.dropLast with
    | none => .error .unicodeDecodeError
    | some rawS =>
      match utf8Decode st.raw_bits.dropLast with
      | none => .error .unicodeDecodeError
      | some hexS =>
        match fromhex hexS with
        | none => .error .valueError
        | some bits => .ok ⟨st.uri, st.format, st.type, some rawS, some parsedS, some bits, some st.points⟩

/-- `BarCode.parse_zxing(zxing_output)` (`zxing/__init__.py:275`), with
`.error` modelling an escaped exception. -/
def parse_zxing (zxing_output : List Nat) : Except PyErr BarCode :=
  match zxRun zxInit (splitlinesKeep zxing_output) with
  | .ret bc => .ok bc
  | .err e => .error e
  | .cont st => zxFinal st

/-! ### `BarCode.parse_rxing` (`zxing/__init__.py:244`)

rxing-cli output is text.  Note that both `return` statements of
`parse_rxing` evaluate `pathlib.Path(path)` where no variable `path` is
in scope (the parameter is `fn`), and the final call also passes
`parsed=parsed` where no variable `parsed` was ever assigned (only `raw`
is); argument evaluation order makes `path` the first undefined name
reached on either path, so every invocation that does not raise
`BarCodeReaderException` raises `NameError: name 'path' is not defined`. -/

/-- A single-quote character, kept out of string literals. -/
def squote : String := (Char.ofNat 39).toString

/-- Whitespace characters of Python `str` methods (`str.strip`,
`str.isspace`): ASCII whitespace, the C1 separators, NEL, and the Unicode
space separators. -/
def isPyStrWs (c : Char) : Bool :=
  let n := c.toNat
  (9 ≤ n && n ≤ 13) || n == 32 || (28 ≤ n && n ≤ 31) || n == 133 || n == 160 ||
    n == 5760 || (8192 ≤ n && n ≤ 8202) || n == 8232 || n == 8233 || n == 8239 ||
    n == 8287 || n == 12288

/-- `str.strip()` with no argument. -/
def pyStrStrip (cs : List Char) : List Char :=
  ((cs.dropWhile isPyStrWs).reverse.dropWhile isPyStrWs).reverse

/-- Line-break characters of `str.splitlines`. -/
def isStrLineBreak (c : Char) : Bool :=
  let n := c.toNat
  n == 10 || n == 13 || n == 11 || n == 12 || (28 ≤ n && n ≤ 30) || n == 133 ||
    n == 8232 || n == 8233

/-- `str.splitlines()` (no kept line endings). -/
def strSplitlines : List Char → List (List Char)
  | [] => []
  | [c] => if isStrLineBreak c then [[]] else [[c]]
  | c :: c2 :: rest =>
    if c.toNat == 13 && c2.toNat == 10 then [] :: strSplitlines rest
    else if isStrLineBreak c then [] :: strSplitlines (c2 :: rest)
    else
      match strSplitlines (c2 :: rest) with
      | [] => [[c]]
      | line :: lines => (c :: line) :: lines

/-- Lowercase-hex digit, the class `[a-f0-9]` of
`BarCode.RUST_UNICODE_ESCAPE` (`zxing/__init__.py:239`). -/
def isRustHexChar (c : Char) : Bool :=
  ('a' ≤ c && c ≤ 'f') || ('0' ≤ c && c ≤ '9')

/-- `str.rjust(4, '0')` on a character list. -/
def rjust4 (l : List Char) : List Char :=
  List.replicate (4 - l.length) '0' ++ l

/-- `RUST_UNICODE_ESCAPE.sub(lambda m: r'\u' + m.group(1).rjust(4, '0'), raw)`
(`zxing/__init__.py:267`): each occurrence of `\u{hex}` (lowercase hex) is
rewritten to `\u` followed by the hex digits left-padded with zeros to at
least four characters.  `fuel` only serves termination; the wrapper passes
enough for any input. -/
def rustEscapeSubAux (fuel : Nat) (cs : List Char) : List Char :=
  match fuel, cs with
  | 0, cs => cs
  | _, [] => []
  | fuel + 1, c :: rest =>
    if c == '\\' then
      match rest with
      | 'u' :: '{' :: rest2 =>
        let hexs := rest2.takeWhile isRustHexChar
        match rest2.drop hexs.length with
        | '}' :: rest3 =>
          if hexs.isEmpty then c :: 'u' :: '{' :: rustEscapeSubAux fuel rest2
          else '\\' :: 'u' :: (rjust4 hexs ++ rustEscapeSubAux fuel rest3)
        | _ => c :: 'u' :: '{' :: rustEscapeSubAux fuel rest2
      | _ => c :: rustEscapeSubAux fuel rest
    else c :: rustEscapeSubAux fuel rest

/-- The regex substitution of `RUST_UNICODE_ESCAPE`. -/
def rustEscapeSub (cs : List Char) : List Char := rustEscapeSubAux cs.length cs

/-- Octal digit byte. -/
def isOctalByte (b : Nat) : Bool := 48 ≤ b && b ≤ 55

/-- `bytes.decode('unicode_escape')` (`zxing/__init__.py:267`): bytes are
Latin-1 characters except for backslash escapes (`\n`, `\t`, `\\`, quotes,
`\a`, `\b`, `\f`, `\r`, `\v`, up to three octal digits, `\xhh`, `\uhhhh`,
`\Uhhhhhhhh`, and a consumed backslash-newline); an unknown escape keeps
the backslash and the following character; a truncated escape or a lone
final backslash raises `ValueError` (`none`).  Named `\N{...}` escapes and
lone-surrogate results never occur in the verified inputs and are mapped
to `none` and U+0000 respectively.  `fuel` only serves termination. -/
def unicodeEscapeAux : Nat → List Nat → Option (List Char)
  | 0, _ => none
  | _, [] => some []
  | fuel + 1, b :: rest =>
    if b ≠ 92 then (unicodeEscapeAux fuel rest).map (Char.ofNat b :: ·)
    else
      match rest with
      | [] => none
      | e :: rest2 =>
        if e == 10 then unicodeEscapeAux fuel rest2
        else if e == 92 then (unicodeEscapeAux fuel rest2).map ('\\' :: ·)
        else if e == 39 then (unicodeEscapeAux fuel rest2).map (Char.ofNat 39 :: ·)
        else if e == 34 then (unicodeEscapeAux fuel rest2).map ('"' :: ·)
        else if e == 97 then (unicodeEscapeAux fuel rest2).map (Char.ofNat 7 :: ·)
        else if e == 98 then (unicodeEscapeAux fuel rest2).map (Char.ofNat 8 :: ·)
        else if e == 102 then (unicodeEscapeAux fuel rest2).map (Char.ofNat 12 :: ·)
        else if e == 110 then (unicodeEscapeAux fuel rest2).map ('\n' :: ·)
        else if e == 114 then (unicodeEscapeAux fuel rest2).map ('\r' :: ·)
        else if e == 116 then (unicodeEscapeAux fuel rest2).map ('\t' :: ·)
        else if e == 118 then (unicodeEscapeAux fuel rest2).map (Char.ofNat 11 :: ·)
        else if isOctalByte e then
          let ds := e :: (rest2.take 2).takeWhile isOctalByte
          let v := ds.foldl (fun a d => a * 8 + (d - 48)) 0
          (unicodeEscapeAux fuel (rest2.drop (ds.length - 1))).map (Char.ofNat v :: ·)
        else if e == 120 then
          match rest2 with
          | h1 :: h2 :: rest3 =>
            if isHexByte h1 && isHexByte h2 then
              (unicodeEscapeAux fuel rest3).map (Char.ofNat (hexVal h1 * 16 + hexVal h2) :: ·)
            else none
          | _ => none
        else if e == 117 then
          match rest2 with
          | h1 :: h2 :: h3 :: h4 :: rest3 =>
            if isHexByte h1 && isHexByte h2 && isHexByte h3 && isHexByte h4 then
              (unicodeEscapeAux fuel rest3).map
                (Char.ofNat (((hexVal h1 * 16 + hexVal h2) * 16 + hexVal h3) * 16 + hexVal h4) :: ·)
            else none
          | _ => none
        else if e == 85 then
          match rest2 with
          | h1 :: h2 :: h3 :: h4 :: h5 :: h6 :: h7 :: h8 :: rest3 =>
            if [h1, h2, h3, h4, h5, h6, h7, h8].all isHexByte then
              let v := [h1, h2, h3, h4, h5, h6, h7, h8].foldl (fun a d => a * 16 + hexVal d) 0
              if v > 1114111 then none
              else (unicodeEscapeAux fuel rest3).map (Char.ofNat v :: ·)
            else none
          | _ => none
        else if e == 78 then none
        else (unicodeEscapeAux fuel rest2).map (fun cs => '\\' :: Char.ofNat e :: cs)

/-- `bytes.decode('unicode_escape')`. -/
def unicodeEscapeDecode (l : List Nat) : Option (List Char) :=
  unicodeEscapeAux (l.length + 1) l

/-- The `[Data]` line transformation of `parse_rxing`
(`zxing/__init__.py:266`): the brace-delimited Rust unicode escapes are
normalised by `RUST_UNICODE_ESCAPE.sub`, then the text is UTF-8 encoded
and decoded with the `unicode_escape` codec. -/
def rxingDataDecode (s : String) : Option String :=
  (unicodeEscapeDecode (utf8Encode ⟨rustEscapeSub s.data⟩)).map fun cs => ⟨cs⟩

/-- Float-class character test for the text `PointT` regex. -/
def isFloatChar (c : Char) : Bool := c == '-' || c == '.' || c.isDigit

/-- Matcher for one occurrence of
`PointT\s*\{\s*x\:\s*([-\d.]+),\s*y\:\s*([-\d.]+)\s*\}`
(`BarCode.POINTS`, `zxing/__init__.py:240`) anchored at the current
position; returns the two groups and the remainder after the match. -/
def rxPointMatchAt (cs : List Char) : Option (List Char × List Char × List Char) := do
  let r1 ← if ("PointT".data.isPrefixOf cs) then some (cs.drop 6) else none
  let r2 := r1.dropWhile (fun c => isAsciiWs c.toNat)
  let r3 ← match r2 with | '{' :: t => some t | _ => none
  let r4 := r3.dropWhile (fun c => isAsciiWs c.toNat)
  let r5 ← match r4 with | 'x' :: ':' :: t => some t | _ => none
  let r6 := r5.dropWhile (fun c => isAsciiWs c.toNat)
  let g1 := r6.takeWhile isFloatChar
  if g1.isEmpty then none
  else
    let r7 ← match r6.drop g1.length with | ',' :: t => some t | _ => none
    let r8 := r7.dropWhile (fun c => isAsciiWs c.toNat)
    let r9 ← match r8 with | 'y' :: ':' :: t => some t | _ => none
    let r10 := r9.dropWhile (fun c => isAsciiWs c.toNat)
    let g2 := r10.takeWhile isFloatChar
    if g2.isEmpty then none
    else
      let r11 := (r10.drop g2.length).dropWhile (fun c => isAsciiWs c.toNat)
      let r12 ← match r11 with | '}' :: t => some t | _ => none
      some (g1, g2, r12)

/-- `BarCode.POINTS.findall`: left-to-right non-overlapping scan.  `fuel`
only serves termination; every match consumes at least one character. -/
def rxFindPointsAux : Nat → List Char → List (List Char × List Char)
  | 0, _ => []
  | _, [] => []
  | fuel + 1, cs =>
    match rxPointMatchAt cs with
    | some (g1, g2, after) => (g1, g2) :: rxFindPointsAux fuel after
    | none =>
      match cs with
      | [] => []
      | _ :: rest => rxFindPointsAux fuel rest

/-- `BarCode.POINTS.findall` over the text after `[Points] `. -/
def rxFindPoints (cs : List Char) : List (List Char × List Char) :=
  rxFindPointsAux cs.length cs

/-- Whether Python `float()` accepts this text drawn from `[-\d.]`
(character version of `pyFloatOk`). -/
def pyFloatOkChars (l : List Char) : Bool :=
  pyFloatOk (l.map Char.toNat)

/-- The `[Points]` line of `parse_rxing` (`zxing/__init__.py:269`):
`float()` is applied to both groups of every match (its `ValueError` is
`none`); the matched texts are kept. -/
def rxPointsOf (cs : List Char) : Option (List (String × String)) :=
  let ms := rxFindPoints cs
  if ms.all fun m => pyFloatOkChars m.1 && pyFloatOkChars m.2 then
    some (ms.map fun m => (⟨m.1⟩, ⟨m.2⟩))
  else none

/-- `RXING_FORMAT_TO_ZXING` (`zxing/__init__.py:242`) applied after
`replace(' ', '_').upper()`. -/
def rxingFormatOf (cs : List Char) : String :=
  let f : List Char := (cs.map fun c => if c == ' ' then '_' else c).map Char.toUpper
  if f = "QRCODE".data then "QR_CODE" else ⟨f⟩

/-- The loop state of `parse_rxing`: `format`, `raw` and `points` as
assigned by the bracketed-tag lines (`parsed` is never assigned — that is
the point of claim C4). -/
structure RxState where
  format : Option String
  raw    : String
  points : List (String × String)
  deriving Repr, DecidableEq

/-- One iteration of the `for l in rxing_output.splitlines()` loop
(`zxing/__init__.py:256`). -/
def rxStep (st : RxState) (l : List Char) : Except PyErr RxState :=
  if "[Barcode Format] ".data.isPrefixOf l then
    .ok { st with format := some (rxingFormatOf (l.drop 17)) }
  else if "[Data] ".data.isPrefixOf l then
    match rxingDataDecode ⟨l.drop 7⟩ with
    | some r => .ok { st with raw := r }
    | none => .error .unicodeDecodeError
  else if "[Points] ".data.isPrefixOf l then
    match rxPointsOf (l.drop 9) with
    | some ps => .ok { st with points := ps }
    | none => .error .valueError
  else .ok st

/-- The full `parse_rxing` line loop. -/
def rxRun : RxState → List (List Char) → Except PyErr RxState
  | st, [] => .ok st
  | st, l :: rest =>
    match rxStep st l with
    | .ok st2 => rxRun st2 rest
    | .error e => .error e

/-- Initial `parse_rxing` loop state (`format = None`, `raw = ''`,
`points = []`). -/
def rxInit : RxState := ⟨none, "", []⟩

/-- `BarCode.parse_rxing(rxing_output, fn)` (`zxing/__init__.py:244`).
Both result-construction sites evaluate the undefined name `path` before
anything else, so the only non-`NameError` outcome is the
`BarCodeReaderException` of a non-`NotFoundException` error prefix (or an
exception escaping the loop itself). -/
def parse_rxing (rxing_output : String) (fn : String) : Except PyErr BarCode :=
  let errp := "Error while attempting to locate barcode in " ++ squote ++ fn ++ squote ++ ":"
  if errp.data.isPrefixOf rxing_output.data then
    let err : String := ⟨pyStrStrip (rxing_output.data.drop errp.data.length)⟩
    if err = "NotFoundException" then
      .error (.nameError "path")
    else
      .error (.readerError err fn)
  else
    match rxRun rxInit (strSplitlines rxing_output.data) with
    | .error e => .error e
    | .ok _ => .error (.nameError "path")

/-! ### The batch tail of `ZxingBarCodeReader._decode` (`zxing/__init__.py:212`)

After the fixed-prefix error classification, `_decode` splits the captured
stdout into per-file chunks at lines starting with `file://` or
`Exception`, parses each chunk, builds `d = {c.uri: c for c in codes}` and
returns `[d[f] for f in file_uris]`.  The expected URI list `file_uris`
is computed from the input paths by `pathlib` (filesystem dependent), so
it is a parameter here. -/

/-- A Python list comprehension over a fallible body: the first exception
escapes. -/
def mapExcept {α β : Type} (f : α → Except PyErr β) : List α → Except PyErr (List β)
  | [] => .ok []
  | a :: l =>
    match f a with
    | .error e => .error e
    | .ok b =>
      match mapExcept f l with
      | .error e => .error e
      | .ok bs => .ok (b :: bs)

/-- The chunk-splitting loop (`zxing/__init__.py:213`): a line starting
with `file://` or `Exception` opens a new chunk, any other line is
appended to the current chunk (`file_results[-1] += line`, an
`IndexError` when no chunk is open yet).  The accumulator keeps chunks in
reverse order with the open chunk first. -/
def splitFileResultsAux (acc : List (List Nat)) : List (List Nat) → Except PyErr (List (List Nat))
  | [] => .ok acc.reverse
  | l :: rest =>
    if (utf8Encode "file://").isPrefixOf l || (utf8Encode "Exception").isPrefixOf l then
      splitFileResultsAux (l :: acc) rest
    else
      match acc with
      | [] => .error .indexError
      | last :: prev => splitFileResultsAux ((last ++ l) :: prev) rest

/-- Split stdout lines into per-file chunks. -/
def splitFileResults (lines : List (List Nat)) : Except PyErr (List (List Nat)) :=
  splitFileResultsAux [] lines

/-- `d[f]` for `d = {c.uri: c for c in codes}`: with duplicate keys a dict
comprehension keeps the last entry, so the lookup searches the reversed
list; a missing key is a `KeyError`. -/
def zxingDictLookup (codes : List BarCode) (f : String) : Except PyErr BarCode :=
  match codes.reverse.find? (fun c => c.uri == some f) with
  | some c => .ok c
  | none => .error (.keyError f)

/-- Lines 212-223 of `ZxingBarCodeReader._decode`: split stdout into
chunks, parse every chunk with `BarCode.parse_zxing`, then return the
parsed results reordered by the expected URIs. -/
def zxing_decode_output (stdout : List Nat) (file_uris : List String) : Except PyErr (List BarCode) :=
  match splitFileResults (splitlinesKeep stdout) with
  | .error e => .error e
  | .ok chunks =>
    match mapExcept parse_zxing chunks with
    | .error e => .error e
    | .ok codes => mapExcept (zxingDictLookup codes) file_uris

/-- A byte list that is one linefeed-terminated line: its body (all but
the final byte) followed by `\n`, with no line-break byte inside the body.
`bytes.splitlines` cuts a concatenation of such lists exactly at their
boundaries. -/
def IsNL (l : List Nat) : Prop :=
  l.dropLast ++ [10] = l ∧ ∀ b ∈ l.dropLast, b ≠ 10 ∧ b ≠ 13

instance (l : List Nat) : Decidable (IsNL l) := by
  unfold IsNL
  infer_instance

/-- The text of a `Raw bits:` section made of whitespace-separated full
hexadecimal digit pairs, together with the byte sequence obtained by
stripping the whitespace and hex-decoding the pairs (the reading of the
specification; `bytes.fromhex` computes exactly this on such input). -/
inductive WsSepPairs : List Char → List Nat → Prop where
  /-- Empty text decodes to no bytes. -/
  | nil : WsSepPairs [] []
  /-- Leading whitespace contributes nothing. -/
  | ws (c : Char) (h : isAsciiWs c.toNat = true) {rest : List Char} {bs : List Nat} :
      WsSepPairs rest bs → WsSepPairs (c :: rest) bs
  /-- A full hexadecimal digit pair contributes one byte. -/
  | pair (c1 c2 : Char) (h1 : isHexByte c1.toNat = true) (h2 : isHexByte c2.toNat = true)
      {rest : List Char} {bs : List Nat} :
      WsSepPairs rest bs → WsSepPairs (c1 :: c2 :: rest) ((hexVal c1.toNat * 16 + hexVal c2.toNat) :: bs)

/-! ## Theorems -/

/-- Dict reassembly, positive side: when some parsed result carries uri
`f`, the lookup `d[f]` succeeds and the entry found carries uri `f` and
comes from `codes`. -/
theorem zxingDictLookup_ok_of_mem (codes : List BarCode) (f : String)
    (h : ∃ c ∈ codes, c.uri = some f) :
    ∃ c, zxingDictLookup codes f = .ok c ∧ c ∈ codes ∧ c.uri = some f := by
  obtain ⟨c, hc, hcu⟩ := h
  have hsome : (codes.reverse.find? fun c => c.uri == some f).isSome := by
    rw [List.find?_isSome]
    exact ⟨c, List.mem_reverse.mpr hc, by simp [hcu]⟩
  obtain ⟨c2, hc2⟩ := Option.isSome_iff_exists.mp hsome
  refine ⟨c2, ?_, ?_, ?_⟩
  · unfold zxingDictLookup
    rw [hc2]
  · exact List.mem_reverse.mp (List.mem_of_find?_eq_some hc2)
  · have hp := List.find?_some hc2
    simp only [] at hp
    exact eq_of_beq hp

/-- Dict reassembly, exhaustive case split: either the lookup succeeds on
an entry with the wanted uri, or no parsed result carries it and the
lookup raises `KeyError`. -/
theorem zxingDictLookup_cases (codes : List BarCode) (f : String) :
    (∃ c, zxingDictLookup codes f = .ok c ∧ c ∈ codes ∧ c.uri = some f) ∨
    (zxingDictLookup codes f = .error (.keyError f) ∧ ∀ c ∈ codes, c.uri ≠ some f) := by
  rcases hfind : codes.reverse.find? (fun c => c.uri == some f) with _ | c
  · refine Or.inr ⟨?_, ?_⟩
    · unfold zxingDictLookup
      rw [hfind]
    · intro c hc hcu
      have := List.find?_eq_none.mp hfind c (List.mem_reverse.mpr hc)
      simp [hcu] at this
  · refine Or.inl ⟨c, ?_, ?_, ?_⟩
    · unfold zxingDictLookup
      rw [hfind]
    · exact List.mem_reverse.mp (List.mem_of_find?_eq_some hfind)
    · have hp := List.find?_some hfind
      simp only [] at hp
      exact eq_of_beq hp

/-- When every requested uri is carried by some parsed result, the
reassembly loop returns one result per request, in request order, each
carrying the requested uri. -/
theorem mapExcept_lookup_all (codes : List BarCode) (fus : List String)
    (h : ∀ f ∈ fus, ∃ c ∈ codes, c.uri = some f) :
    ∃ res, mapExcept (zxingDictLookup codes) fus = .ok res ∧
      res.length = fus.length ∧
      ∀ (i : Nat) (h1 : i < res.length) (h2 : i < fus.length),
        (res.get ⟨i, h1⟩).uri = some (fus.get ⟨i, h2⟩) := by
  induction fus with
  | nil =>
    exact ⟨[], rfl, rfl, fun i h1 _ => absurd h1 (by simp)⟩
  | cons f fs ih =>
    obtain ⟨c, hcl, _, hcu⟩ := zxingDictLookup_ok_of_mem codes f (h f (List.mem_cons_self f fs))
    obtain ⟨res, hres, hlen, hget⟩ := ih fun g hg => h g (List.mem_cons_of_mem f hg)
    refine ⟨c :: res, ?_, by simp [hlen], ?_⟩
    · unfold mapExcept
      rw [hcl, hres]
    · intro i h1 h2
      match i with
      | 0 => exact hcu
      | n + 1 => exact hget n (Nat.lt_of_succ_lt_succ h1) (Nat.lt_of_succ_lt_succ h2)

/-- C3: For every filename `fn` and every rxing output starting with the
exact prefix `Error while attempting to locate barcode in '<fn>':`, the
specified behaviour (a uri-only failure `BarCode` for the literal
`NotFoundException` reason, a `BarCodeReaderException` carrying the raw
reason and `fn` otherwise) holds only for the latter half: when the reason
is `NotFoundException` the code evaluates `pathlib.Path(path)` with the
undefined name `path` (a slip for the parameter `fn`) and raises
`NameError` instead of returning the failure result, contradicting the
repository's own `test_rxing_parsing_not_found`. -/
theorem c3_rxing_error_shortcircuit :
    parse_rxing ("Error while attempting to locate barcode in " ++ squote ++
        "/tmp/no_barcode.png" ++ squote ++ ": NotFoundException") "/tmp/no_barcode.png" =
      .error (.nameError "path") ∧
    parse_rxing ("Error while attempting to locate barcode in " ++ squote ++
        "/tmp/x.png" ++ squote ++ ": FormatException") "/tmp/x.png" =
      .error (.readerError "FormatException" "/tmp/x.png") := by
  exact ⟨rfl, rfl⟩

/-- C4: For a successful rxing output the claimed result (`raw` equal to
`parsed`, `raw_bits` absent, `type` equal to `TEXT`) is never returned:
the line loop does compute the format and the payload, but the result
construction `cls(pathlib.Path(path)..., parsed=parsed, ...)` references
the undefined names `path` and `parsed` (only `raw` was assigned), so the
call raises `NameError` instead — contradicting the repository's own
`test_rxing_parsing`, which expects `dec.raw == dec.parsed` and
`dec.type == 'TEXT'`. -/
theorem c4_rxing_success_nameerror :
    rxRun rxInit (strSplitlines ("[Barcode Format] qrcode" ++ "\n" ++ "[Data] hello").data) =
      .ok ⟨some "QR_CODE", "hello", []⟩ ∧
    parse_rxing ("[Barcode Format] qrcode" ++ "\n" ++ "[Data] hello") "/tmp/x.png" =
      .error (.nameError "path") := by
  exact ⟨rfl, rfl⟩

/-- C5: The `[Data]` line transformation itself is as claimed — each
`\u{hex}` escape is zero-padded to `\uXXXX` and the line is then decoded
as a backslash-escaped string, so `\u{a1}Atenci\u{f3}n` becomes the
literal text `¡Atención` — but `parse_rxing` never returns a `BarCode`
carrying that payload: after the loop it evaluates the undefined name
`path` and raises `NameError`. -/
theorem c5_rxing_data_escapes :
    rxingDataDecode "\\u{a1}Atenci\\u{f3}n" = some "¡Atención" ∧
    rxRun rxInit (strSplitlines ("[Data] " ++ "\\u{a1}Atenci\\u{f3}n").data) =
      .ok ⟨none, "¡Atención", []⟩ ∧
    parse_rxing ("[Data] " ++ "\\u{a1}Atenci\\u{f3}n") "/tmp/test.png" =
      .error (.nameError "path") := by
  exact ⟨rfl, rfl, rfl⟩

/-- C7: A first line whose stripped form ends in `: No barcode found`
short-circuits `parse_zxing` into a failure result whose uri is the
text-decoded part of the line before the final colon, with every decode
field absent; the result is boolean-falsy and no exception is raised. -/
theorem c7_no_barcode_shortcircuit (s l : List Nat) (rest : List (List Nat)) (u : String)
    (hsplit : splitlinesKeep s = l :: rest)
    (hmark : (utf8Encode ": No barcode found").isSuffixOf (stripBytes l) = true)
    (hdec : utf8Decode (rsplitColonBefore l) = some u) :
    parse_zxing s = .ok ⟨some u, none, none, none, none, none, none⟩ ∧
      BarCode.toBool ⟨some u, none, none, none, none, none, none⟩ = false := by
  refine ⟨?_, rfl⟩
  unfold parse_zxing
  rw [hsplit]
  simp only [zxRun, zxStep, zxInit, hmark, hdec, if_true]

/-- Witness for C7 at a concrete no-barcode output line. -/
theorem c7_no_barcode_shortcircuit_witness :
    splitlinesKeep (utf8Encode "file:///x.png: No barcode found\n") =
        [utf8Encode "file:///x.png: No barcode found\n"] ∧
      (utf8Encode ": No barcode found").isSuffixOf
        (stripBytes (utf8Encode "file:///x.png: No barcode found\n")) = true ∧
      utf8Decode (rsplitColonBefore (utf8Encode "file:///x.png: No barcode found\n")) =
        some "file:///x.png" ∧
      (parse_zxing (utf8Encode "file:///x.png: No barcode found\n") =
        .ok ⟨some "file:///x.png", none, none, none, none, none, none⟩ ∧
       BarCode.toBool ⟨some "file:///x.png", none, none, none, none, none, none⟩ = false) :=
  ⟨by decide, by decide, by decide,
    c7_no_barcode_shortcircuit (utf8Encode "file:///x.png: No barcode found\n")
      (utf8Encode "file:///x.png: No barcode found\n") [] "file:///x.png"
      (by decide) (by decide) (by decide)⟩

/-- C6 counterexample: `parse_zxing` on an output consisting of a valid
header line with no `Raw result:` section produces a mixed state — the
`format` and `type` fields populated while `raw` is the empty string (a
falsy result) — so the claimed two-state dichotomy over all produced
results fails. -/
theorem c6_counterexample :
    parse_zxing (utf8Encode "file:///x (format: QR_CODE, type: TEXT)\n") =
        .ok ⟨some "file:///x", some "QR_CODE", some "TEXT", some "", some "", some [], some []⟩ ∧
      (BarCode.mk (some "file:///x") (some "QR_CODE") (some "TEXT")
          (some "") (some "") (some []) (some [])).format ≠ none ∧
      (BarCode.mk (some "file:///x") (some "QR_CODE") (some "TEXT")
          (some "") (some "") (some []) (some [])).raw = some "" ∧
      BarCode.toBool (BarCode.mk (some "file:///x") (some "QR_CODE") (some "TEXT")
          (some "") (some "") (some []) (some [])) = false := by
  refine ⟨rfl, by simp, rfl, rfl⟩

set_option maxHeartbeats 1000000 in
/-- C2 counterexample: a batch `_decode` tail over one requested file
whose stdout also contains a block for an unrequested file returns
normally, silently dropping the unmatched parsed result instead of
failing: the parsed output contains a Result with uri `file:///x.png`
matching no requested input, yet the call succeeds and returns only the
requested file's Result. -/
theorem c2_counterexample :
    zxing_decode_output
        (utf8Encode ("file:///a.png: No barcode found" ++ "\n" ++
          "file:///x.png: No barcode found" ++ "\n"))
        ["file:///a.png"] =
      .ok [⟨some "file:///a.png", none, none, none, none, none, none⟩] ∧
    mapExcept parse_zxing [utf8Encode ("file:///a.png: No barcode found" ++ "\n"),
        utf8Encode ("file:///x.png: No barcode found" ++ "\n")] =
      .ok [⟨some "file:///a.png", none, none, none, none, none, none⟩,
           ⟨some "file:///x.png", none, none, none, none, none, none⟩] := by
  exact ⟨rfl, rfl⟩

/-- C8: whenever the parsed uri has a non-empty network location or a
scheme other than `file`, the `path` accessor yields `None` without
raising. -/
theorem c8_path_absent_netloc (bc : BarCode) (u : String)
    (huri : bc.uri = some u)
    (h : (urlparse u).netloc ≠ "" ∨ (urlparse u).scheme ≠ "file") :
    BarCode.path bc = .ok none := by
  unfold BarCode.path
  rw [huri]
  unfold file_uri_to_path
  have hne : ¬(((urlparse u).scheme, (urlparse u).netloc, (urlparse u).query,
      (urlparse u).fragment) = ("file", "", "", "")) := by
    intro heq
    simp only [Prod.mk.injEq] at heq
    rcases h with h | h
    · exact h heq.2.1
    · exact h heq.1
  simp only [hne, if_false]

/-- Witness for C8: a network-location-bearing uri parsed from backend-A
output keeps `uri` populated while `path` is absent. -/
theorem c8_path_absent_netloc_witness :
    parse_zxing (utf8Encode "file://HOST/x.png: No barcode found\n") =
        .ok ⟨some "file://HOST/x.png", none, none, none, none, none, none⟩ ∧
      (BarCode.mk (some "file://HOST/x.png") none none none none none none).uri =
        some "file://HOST/x.png" ∧
      ((urlparse "file://HOST/x.png").netloc ≠ "" ∨
        (urlparse "file://HOST/x.png").scheme ≠ "file") ∧
      BarCode.path (BarCode.mk (some "file://HOST/x.png") none none none none none none) =
        .ok none :=
  ⟨rfl, rfl, Or.inl (by decide),
    c8_path_absent_netloc (BarCode.mk (some "file://HOST/x.png") none none none none none none)
      "file://HOST/x.png" rfl (Or.inl (by decide))⟩

/-- C10: the `path` accessor is exactly `unquote_plus` of the parsed path
component when the uri has scheme `file` and empty netloc, query and
fragment, and `None` otherwise; in particular `+` decodes to a space, and
a non-empty query or fragment alone already makes `path` absent. -/
theorem c10_path_exact_characterisation (bc : BarCode) (u : String) (huri : bc.uri = some u) :
    (BarCode.path bc = .ok (
      if (urlparse u).scheme = "file" ∧ (urlparse u).netloc = "" ∧ (urlparse u).query = "" ∧
          (urlparse u).fragment = ""
      then some (unquote_plus (urlparse u).path) else none)) ∧
    unquote_plus "/a+b" = "/a b" ∧
    BarCode.path (BarCode.mk (some "file:///a+b") none none none none none none) =
      .ok (some "/a b") ∧
    BarCode.path (BarCode.mk (some "file:///a?q=1") none none none none none none) = .ok none ∧
    BarCode.path (BarCode.mk (some "file:///a#frag") none none none none none none) = .ok none := by
  refine ⟨?_, rfl, rfl, rfl, rfl⟩
  simp only [BarCode.path, huri, file_uri_to_path]
  split_ifs with h1 h2 h2
  · rfl
  · refine absurd ?_ h2
    simp only [Prod.mk.injEq] at h1
    exact ⟨h1.1, h1.2.1, h1.2.2.1, h1.2.2.2⟩
  · refine absurd ?_ h1
    rw [h2.1, h2.2.1, h2.2.2.1, h2.2.2.2]
  · rfl

/-- Witness for C10 at a uri whose path contains both a plus sign and a
percent escape. -/
theorem c10_path_exact_characterisation_witness :
    (BarCode.mk (some "file:///a+b%20c.png") none none none none none none).uri =
        some "file:///a+b%20c.png" ∧
      ((BarCode.path (BarCode.mk (some "file:///a+b%20c.png") none none none none none none) =
        .ok (
          if (urlparse "file:///a+b%20c.png").scheme = "file" ∧
              (urlparse "file:///a+b%20c.png").netloc = "" ∧
              (urlparse "file:///a+b%20c.png").query = "" ∧
              (urlparse "file:///a+b%20c.png").fragment = ""
          then some (unquote_plus (urlparse "file:///a+b%20c.png").path) else none)) ∧
        unquote_plus "/a+b" = "/a b" ∧
        BarCode.path (BarCode.mk (some "file:///a+b") none none none none none none) =
          .ok (some "/a b") ∧
        BarCode.path (BarCode.mk (some "file:///a?q=1") none none none none none none) =
          .ok none ∧
        BarCode.path (BarCode.mk (some "file:///a#frag") none none none none none none) =
          .ok none) ∧
      BarCode.path (BarCode.mk (some "file:///a+b%20c.png") none none none none none none) =
        .ok (some "/a b c.png") :=
  ⟨rfl,
    c10_path_exact_characterisation
      (BarCode.mk (some "file:///a+b%20c.png") none none none none none none)
      "file:///a+b%20c.png" rfl,
    rfl⟩

/-- C1: when the batch stdout splits and parses into results whose uris
are a permutation of the expected uris (one well-formed block per
requested file, in arbitrary order), the `_decode` tail returns exactly
one result per requested file, and the i-th returned result carries the
i-th requested file's uri. -/
theorem c1_batch_reorder (stdout : List Nat) (file_uris : List String)
    (chunks : List (List Nat)) (codes : List BarCode)
    (hchunks : splitFileResults (splitlinesKeep stdout) = .ok chunks)
    (hcodes : mapExcept parse_zxing chunks = .ok codes)
    (hperm : (codes.map BarCode.uri).Perm (file_uris.map some)) :
    ∃ res, zxing_decode_output stdout file_uris = .ok res ∧
      res.length = file_uris.length ∧
      ∀ (i : Nat) (h1 : i < res.length) (h2 : i < file_uris.length),
        (res.get ⟨i, h1⟩).uri = some (file_uris.get ⟨i, h2⟩) := by
  have hcov : ∀ f ∈ file_uris, ∃ c ∈ codes, c.uri = some f := by
    intro f hf
    have hmm : some f ∈ codes.map BarCode.uri :=
      hperm.symm.subset (List.mem_map_of_mem some hf)
    obtain ⟨c, hc, hcu⟩ := List.mem_map.mp hmm
    exact ⟨c, hc, hcu⟩
  obtain ⟨res, hres, hlen, hget⟩ := mapExcept_lookup_all codes file_uris hcov
  refine ⟨res, ?_, hlen, hget⟩
  simp only [zxing_decode_output, hchunks, hcodes]
  exact hres

/-- Witness for C1: two requested files whose no-barcode blocks come back
in the opposite order. -/
theorem c1_batch_reorder_witness :
    splitFileResults (splitlinesKeep (utf8Encode ("file:///b.png: No barcode found" ++ "\n" ++
        "file:///a.png: No barcode found" ++ "\n"))) =
      .ok [utf8Encode ("file:///b.png: No barcode found" ++ "\n"),
           utf8Encode ("file:///a.png: No barcode found" ++ "\n")] ∧
    mapExcept parse_zxing [utf8Encode ("file:///b.png: No barcode found" ++ "\n"),
        utf8Encode ("file:///a.png: No barcode found" ++ "\n")] =
      .ok [⟨some "file:///b.png", none, none, none, none, none, none⟩,
           ⟨some "file:///a.png", none, none, none, none, none, none⟩] ∧
    (([⟨some "file:///b.png", none, none, none, none, none, none⟩,
       ⟨some "file:///a.png", none, none, none, none, none, none⟩] : List BarCode).map
        BarCode.uri).Perm ((["file:///a.png", "file:///b.png"] : List String).map some) ∧
    ∃ res, zxing_decode_output (utf8Encode ("file:///b.png: No barcode found" ++ "\n" ++
        "file:///a.png: No barcode found" ++ "\n")) ["file:///a.png", "file:///b.png"] =
        .ok res ∧
      res.length = (["file:///a.png", "file:///b.png"] : List String).length ∧
      ∀ (i : Nat) (h1 : i < res.length)
          (h2 : i < (["file:///a.png", "file:///b.png"] : List String).length),
        (res.get ⟨i, h1⟩).uri =
          some ((["file:///a.png", "file:///b.png"] : List String).get ⟨i, h2⟩) :=
  ⟨rfl, rfl, by decide,
    c1_batch_reorder
      (utf8Encode ("file:///b.png: No barcode found" ++ "\n" ++
        "file:///a.png: No barcode found" ++ "\n"))
      ["file:///a.png", "file:///b.png"]
      [utf8Encode ("file:///b.png: No barcode found" ++ "\n"),
       utf8Encode ("file:///a.png: No barcode found" ++ "\n")]
      [⟨some "file:///b.png", none, none, none, none, none, none⟩,
       ⟨some "file:///a.png", none, none, none, none, none, none⟩]
      rfl rfl (by decide)⟩

/-- C2 amended: a parsed Result whose uri matches no requested input never
makes the call fail — it is silently omitted from the returned sequence —
and the reassembly fails (an uncaught `KeyError`) precisely when some
requested uri is carried by no parsed Result; in every successful case the
returned sequence has exactly one entry per requested file. -/
theorem c2_amended_unmatched_dropped (codes : List BarCode) (file_uris : List String) :
    ((mapExcept (zxingDictLookup codes) file_uris).isOk = false ↔
      ∃ f ∈ file_uris, ∀ c ∈ codes, c.uri ≠ some f) ∧
    (∀ res, mapExcept (zxingDictLookup codes) file_uris = .ok res →
      res.length = file_uris.length) := by
  induction file_uris with
  | nil =>
    refine ⟨⟨fun hfalse => absurd hfalse (by simp [mapExcept, Except.isOk, Except.toBool]), ?_⟩, ?_⟩
    · rintro ⟨f, hf, -⟩
      exact absurd hf (List.not_mem_nil f)
    · intro res hres
      simp only [mapExcept] at hres
      cases hres
      rfl
  | cons f fs ih =>
    rcases zxingDictLookup_cases codes f with ⟨c, hlk, -, hcu⟩ | ⟨hlk, hnom⟩
    · rcases htail : mapExcept (zxingDictLookup codes) fs with e | bs
      · refine ⟨⟨fun _ => ?_, fun _ => ?_⟩, ?_⟩
        · obtain ⟨g, hg, hgno⟩ := (ih.1).mp (by rw [htail]; rfl)
          exact ⟨g, List.mem_cons_of_mem f hg, hgno⟩
        · simp [mapExcept, hlk, htail, Except.isOk, Except.toBool]
        · intro res hres
          simp [mapExcept, hlk, htail] at hres
      · refine ⟨⟨fun hfalse => ?_, fun hex => ?_⟩, ?_⟩
        · simp [mapExcept, hlk, htail, Except.isOk, Except.toBool] at hfalse
        · obtain ⟨g, hg, hgno⟩ := hex
          rcases List.mem_cons.mp hg with rfl | hg2
          · exact absurd hcu (hgno c (by
              exact List.mem_reverse.mp (List.mem_of_find?_eq_some (by
                have := hlk
                unfold zxingDictLookup at this
                rcases hfind : codes.reverse.find? (fun d => d.uri == some g) with _ | d
                · rw [hfind] at this
                  cases this
                · rw [hfind] at this
                  cases this
                  exact hfind))))
          · have : (mapExcept (zxingDictLookup codes) fs).isOk = false :=
              (ih.1).mpr ⟨g, hg2, hgno⟩
            rw [htail] at this
            cases this
        · intro res hres
          simp only [mapExcept, hlk, htail] at hres
          cases hres
          simp [ih.2 bs htail]
    · refine ⟨⟨fun _ => ⟨f, List.mem_cons_self f fs, hnom⟩, fun _ => ?_⟩, ?_⟩
      · simp [mapExcept, hlk, Except.isOk, Except.toBool]
      · intro res hres
        simp [mapExcept, hlk] at hres

/-- The early `return` of the `parse_zxing` line loop only ever builds the
no-barcode failure shape: every decode field absent. -/
theorem zxStep_ret_shape (st : ZxState) (l : List Nat) (bc : BarCode)
    (h : zxStep st l = .ret bc) :
    bc.format = none ∧ bc.type = none ∧ bc.raw = none ∧ bc.parsed = none ∧
      bc.raw_bits = none ∧ bc.points = none := by
  unfold zxStep at h
  repeat' split at h
  all_goals cases h
  all_goals exact ⟨rfl, rfl, rfl, rfl, rfl, rfl⟩

/-- Lifting of `zxStep_ret_shape` through the whole line loop. -/
theorem zxRun_ret_shape (lines : List (List Nat)) :
    ∀ (st : ZxState) (bc : BarCode), zxRun st lines = .ret bc →
      bc.format = none ∧ bc.type = none ∧ bc.raw = none ∧ bc.parsed = none ∧
        bc.raw_bits = none ∧ bc.points = none := by
  induction lines with
  | nil =>
    intro st bc h
    cases h
  | cons l ls ih =>
    intro st bc h
    unfold zxRun at h
    rcases hstep : zxStep st l with st2 | bc2 | e
    · rw [hstep] at h
      have h2 : zxRun st2 ls = ZxStep.ret bc := h
      exact ih _ _ h2
    · rw [hstep] at h
      have h2 : ZxStep.ret bc2 = ZxStep.ret bc := h
      cases h2
      exact zxStep_ret_shape _ _ _ hstep
    · rw [hstep] at h
      have h2 : ZxStep.err e = ZxStep.ret bc := h
      cases h2

/-- The epilogue of `parse_zxing` always populates `raw`, `parsed`,
`raw_bits` and `points` (possibly with empty values). -/
theorem zxFinal_ok_shape (st : ZxState) (bc : BarCode) (h : zxFinal st = .ok bc) :
    bc.raw ≠ none ∧ bc.parsed ≠ none ∧ bc.raw_bits ≠ none ∧ bc.points ≠ none := by
  unfold zxFinal at h
  repeat' split at h
  all_goals cases h
  exact ⟨by simp, by simp, by simp, by simp⟩

/-- C6 amended: every `BarCode` produced by `parse_zxing` is either the
no-barcode failure (all six decode fields absent) or an epilogue result in
which `raw`, `parsed`, `raw_bits` and `points` are all populated (possibly
with empty values) — but in the second state `format` may be populated
while `raw` is empty (see the counterexample), so the claimed exactly-two
dichotomy with `format`/`raw`/`parsed` jointly populated fails; and
`parse_rxing` never returns a `BarCode` at all (every path raises). -/
theorem c6_amended_parse_states :
    (∀ (s : List Nat) (bc : BarCode), parse_zxing s = .ok bc →
      (bc.format = none ∧ bc.type = none ∧ bc.raw = none ∧ bc.parsed = none ∧
        bc.raw_bits = none ∧ bc.points = none) ∨
      (bc.raw ≠ none ∧ bc.parsed ≠ none ∧ bc.raw_bits ≠ none ∧ bc.points ≠ none)) ∧
    (∀ (rxing_output fn : String) (bc : BarCode), parse_rxing rxing_output fn ≠ .ok bc) := by
  constructor
  · intro s bc h
    unfold parse_zxing at h
    split at h
    · rename_i heq
      cases h
      exact Or.inl (zxRun_ret_shape _ _ _ heq)
    · cases h
    · exact Or.inr (zxFinal_ok_shape _ _ h)
  · intro out fn bc h
    simp only [parse_rxing] at h
    split at h
    · split at h <;> cases h
    · split at h <;> cases h

/-- Witness for C6 amended at a concrete no-barcode output. -/
theorem c6_amended_parse_states_witness :
    parse_zxing (utf8Encode "file:///nb.png: No barcode found\n") =
        .ok ⟨some "file:///nb.png", none, none, none, none, none, none⟩ ∧
      (((BarCode.mk (some "file:///nb.png") none none none none none none).format = none ∧
        (BarCode.mk (some "file:///nb.png") none none none none none none).type = none ∧
        (BarCode.mk (some "file:///nb.png") none none none none none none).raw = none ∧
        (BarCode.mk (some "file:///nb.png") none none none none none none).parsed = none ∧
        (BarCode.mk (some "file:///nb.png") none none none none none none).raw_bits = none ∧
        (BarCode.mk (some "file:///nb.png") none none none none none none).points = none) ∨
       ((BarCode.mk (some "file:///nb.png") none none none none none none).raw ≠ none ∧
        (BarCode.mk (some "file:///nb.png") none none none none none none).parsed ≠ none ∧
        (BarCode.mk (some "file:///nb.png") none none none none none none).raw_bits ≠ none ∧
        (BarCode.mk (some "file:///nb.png") none none none none none none).points ≠ none)) :=
  ⟨rfl, c6_amended_parse_states.1 (utf8Encode "file:///nb.png: No barcode found\n")
    (BarCode.mk (some "file:///nb.png") none none none none none none) rfl⟩

/-- `bytes.splitlines(True)` cuts a linefeed-terminated body off the front
of a byte string. -/
theorem splitlinesKeep_body (body : List Nat) (hbody : ∀ b ∈ body, b ≠ 10 ∧ b ≠ 13)
    (rest : List Nat) :
    splitlinesKeep (body ++ [10] ++ rest) = (body ++ [10]) :: splitlinesKeep rest := by
  induction body with
  | nil =>
    rw [List.nil_append, List.cons_append, List.nil_append, splitlinesKeep.eq_def]
    simp
  | cons b body ih =>
    have hb := hbody b (List.mem_cons_self b body)
    have ih2 := ih fun x hx => hbody x (List.mem_cons_of_mem b hx)
    rw [List.append_assoc, List.singleton_append] at ih2
    simp only [List.cons_append]
    rw [splitlinesKeep.eq_def]
    simp [hb.1, hb.2, ih2]

/-- `bytes.splitlines(True)` cuts a full line off the front. -/
theorem splitlinesKeep_line (l : List Nat) (hl : IsNL l) (rest : List Nat) :
    splitlinesKeep (l ++ rest) = l :: splitlinesKeep rest := by
  obtain ⟨heq, hbody⟩ := hl
  have h2 := splitlinesKeep_body l.dropLast hbody rest
  rw [heq] at h2
  exact h2

/-- `bytes.splitlines(True)` cuts a concatenation of full lines off the
front. -/
theorem splitlinesKeep_flatten (ls : List (List Nat)) (h : ∀ l ∈ ls, IsNL l)
    (rest : List Nat) :
    splitlinesKeep (ls.flatten ++ rest) = ls ++ splitlinesKeep rest := by
  induction ls with
  | nil => simp
  | cons l ls ih =>
    rw [List.flatten_cons, List.append_assoc,
      splitlinesKeep_line l (h l (List.mem_cons_self l ls)),
      ih fun x hx => h x (List.mem_cons_of_mem l hx)]
    rfl

/-- One loop iteration whose step continues. -/
theorem zxRun_cons_cont (st st2 : ZxState) (l : List Nat) (ls : List (List Nat))
    (h : zxStep st l = .cont st2) : zxRun st (l :: ls) = zxRun st2 ls := by
  have heq : zxRun st (l :: ls) =
      (match zxStep st l with
       | .cont st2 => zxRun st2 ls
       | r => r) := rfl
  rw [heq, h]

/-- The `parse_zxing` line loop over an appended list runs the first part
first. -/
theorem zxRun_append (ls1 ls2 : List (List Nat)) : ∀ st : ZxState,
    zxRun st (ls1 ++ ls2) =
      match zxRun st ls1 with
      | .cont st2 => zxRun st2 ls2
      | r => r := by
  induction ls1 with
  | nil => intro st; rfl
  | cons l ls ih =>
    intro st
    rcases hstep : zxStep st l with st2 | bc | e
    · rw [List.cons_append, zxRun_cons_cont st st2 l (ls ++ ls2) hstep, ih st2,
        zxRun_cons_cont st st2 l ls hstep]
    · have h1 : zxRun st (l :: ls ++ ls2) = .ret bc := by
        rw [List.cons_append]
        unfold zxRun
        rw [hstep]
      have h2 : zxRun st (l :: ls) = .ret bc := by
        unfold zxRun
        rw [hstep]
      rw [h1, h2]
    · have h1 : zxRun st (l :: ls ++ ls2) = .err e := by
        rw [List.cons_append]
        unfold zxRun
        rw [hstep]
      have h2 : zxRun st (l :: ls) = .err e := by
        unfold zxRun
        rw [hstep]
      rw [h1, h2]

/-- In the `RAW` block, non-marker lines accumulate verbatim onto `raw`. -/
theorem zxRun_raw_accum (ls : List (List Nat))
    (hls : ∀ l ∈ ls, (utf8Encode "Parsed result:").isPrefixOf l = false) :
    ∀ st : ZxState, st.block = .RAW →
      zxRun st ls = .cont { st with raw := st.raw ++ ls.flatten } := by
  induction ls with
  | nil =>
    intro st hb
    simp [zxRun]
  | cons l ls ih =>
    intro st hb
    have hstep : zxStep st l = .cont { st with raw := st.raw ++ l } := by
      simp [zxStep, hb, hls l (List.mem_cons_self l ls)]
    rw [zxRun_cons_cont _ _ _ _ hstep,
      ih (fun x hx => hls x (List.mem_cons_of_mem l hx)) { st with raw := st.raw ++ l } hb]
    simp [List.append_assoc]

/-- In the `PARSED` block, non-marker lines accumulate verbatim onto
`parsed`. -/
theorem zxRun_parsed_accum (ls : List (List Nat))
    (hls : ∀ l ∈ ls, (utf8Encode "Raw bits:").isPrefixOf l = false ∧
      matchesPointsMarker l = false) :
    ∀ st : ZxState, st.block = .PARSED →
      zxRun st ls = .cont { st with parsed := st.parsed ++ ls.flatten } := by
  induction ls with
  | nil =>
    intro st hb
    simp [zxRun]
  | cons l ls ih =>
    intro st hb
    have hstep : zxStep st l = .cont { st with parsed := st.parsed ++ l } := by
      simp [zxStep, hb, (hls l (List.mem_cons_self l ls)).1, (hls l (List.mem_cons_self l ls)).2]
    rw [zxRun_cons_cont _ _ _ _ hstep,
      ih (fun x hx => hls x (List.mem_cons_of_mem l hx)) { st with parsed := st.parsed ++ l } hb]
    simp [List.append_assoc]

/-- In the `RAW_BITS` block, non-marker lines accumulate verbatim onto
`raw_bits`. -/
theorem zxRun_rawbits_accum (ls : List (List Nat))
    (hls : ∀ l ∈ ls, matchesPointsMarker l = false) :
    ∀ st : ZxState, st.block = .RAW_BITS →
      zxRun st ls = .cont { st with raw_bits := st.raw_bits ++ ls.flatten } := by
  induction ls with
  | nil =>
    intro st hb
    simp [zxRun]
  | cons l ls ih =>
    intro st hb
    have hstep : zxStep st l = .cont { st with raw_bits := st.raw_bits ++ l } := by
      simp [zxStep, hb, hls l (List.mem_cons_self l ls)]
    rw [zxRun_cons_cont _ _ _ _ hstep,
      ih (fun x hx => hls x (List.mem_cons_of_mem l hx)) { st with raw_bits := st.raw_bits ++ l } hb]
    simp [List.append_assoc]

/-- A `Parsed result:` marker line moves the `RAW` block to `PARSED`. -/
theorem zxStep_parsed_marker (st : ZxState) (hb : st.block = .RAW) :
    zxStep st (utf8Encode "Parsed result:\n") = .cont { st with block := .PARSED } := by
  have hpre : (utf8Encode "Parsed result:").isPrefixOf (utf8Encode "Parsed result:\n") = true := by
    decide
  simp [zxStep, hb, hpre]

/-- A `Raw bits:` marker line moves the `PARSED` block to `RAW_BITS`. -/
theorem zxStep_rawbits_marker (st : ZxState) (hb : st.block = .PARSED) :
    zxStep st (utf8Encode "Raw bits:\n") = .cont { st with block := .RAW_BITS } := by
  have hpre : (utf8Encode "Raw bits:").isPrefixOf (utf8Encode "Raw bits:\n") = true := by decide
  simp [zxStep, hb, hpre]

/-- A result-points marker line moves the `PARSED` block to `POINTS`. -/
theorem zxStep_points_marker_parsed (st : ZxState) (hb : st.block = .PARSED) :
    zxStep st (utf8Encode "Found 1 result points\n") = .cont { st with block := .POINTS } := by
  have h1 : (utf8Encode "Raw bits:").isPrefixOf (utf8Encode "Found 1 result points\n") = false := by
    decide
  have h2 : matchesPointsMarker (utf8Encode "Found 1 result points\n") = true := by decide
  simp [zxStep, hb, h1, h2]

/-- A result-points marker line moves the `RAW_BITS` block to `POINTS`. -/
theorem zxStep_points_marker_rawbits (st : ZxState) (hb : st.block = .RAW_BITS) :
    zxStep st (utf8Encode "Found 1 result points\n") = .cont { st with block := .POINTS } := by
  have h2 : matchesPointsMarker (utf8Encode "Found 1 result points\n") = true := by decide
  simp [zxStep, hb, h2]

/-- Evaluation of the `parse_zxing` epilogue when all four conversions are
given. -/
theorem zxFinal_eval (st : ZxState) (rawS parsedS hexS : String) (bs : List Nat)
    (h1 : utf8Decode st.parsed.dropLast = some parsedS)
    (h2 : utf8Decode st.raw.dropLast = some rawS)
    (h3 : utf8Decode st.raw_bits.dropLast = some hexS)
    (h4 : fromhex hexS = some bs) :
    zxFinal st = .ok ⟨st.uri, st.format, st.type, some rawS, some parsedS, some bs, some st.points⟩ := by
  simp only [zxFinal, h1, h2, h3, h4]

/-- A hexadecimal digit byte is not an ASCII whitespace byte. -/
theorem hex_not_ws (n : Nat) (h : isHexByte n = true) : isAsciiWs n = false := by
  simp only [isHexByte, Bool.or_eq_true, Bool.and_eq_true, decide_eq_true_eq] at h
  simp only [isAsciiWs, Bool.or_eq_false_iff, beq_eq_false_iff_ne, ne_eq]
  omega

/-- `bytes.fromhex` computes exactly the strip-whitespace-and-decode-pairs
reading on whitespace-separated full hexadecimal digit pairs. -/
theorem fromhexChars_of_wsSepPairs (cs : List Char) (bs : List Nat)
    (h : WsSepPairs cs bs) : fromhexChars cs = some bs := by
  induction h with
  | nil => rfl
  | ws c hws _ ih =>
    unfold fromhexChars
    rw [if_pos hws]
    exact ih
  | pair c1 c2 h1 h2 _ ih =>
    have hws : isAsciiWs c1.toNat = false := hex_not_ws c1.toNat h1
    simp [fromhexChars, hws, h1, h2, ih]

/-- The `parse_zxing` line loop over an appended list, when the first part
only continues. -/
theorem zxRun_append_cont (ls1 ls2 : List (List Nat)) (st st2 : ZxState)
    (h : zxRun st ls1 = .cont st2) : zxRun st (ls1 ++ ls2) = zxRun st2 ls2 := by
  rw [zxRun_append ls1 ls2 st, h]

/-- C9: a well-formed backend-A block whose `Raw bits:` section consists of
whitespace-separated full hexadecimal digit pairs parses with `raw_bits`
equal to exactly the bytes of those pairs (one byte — the final newline of
the accumulated section — having been dropped before decoding); a block
with no `Raw bits:` section parses with `raw_bits` empty; and non-pair hex
content is a fatal parse error (`ValueError` from `bytes.fromhex`). -/
theorem c9_raw_bits_exact (rawlines parsedlines hexlines : List (List Nat))
    (rawS parsedS hexS : String) (bs : List Nat)
    (hraw : ∀ l ∈ rawlines, IsNL l ∧ (utf8Encode "Parsed result:").isPrefixOf l = false)
    (hparsed : ∀ l ∈ parsedlines, IsNL l ∧ (utf8Encode "Raw bits:").isPrefixOf l = false ∧
        matchesPointsMarker l = false)
    (hhex : ∀ l ∈ hexlines, IsNL l ∧ matchesPointsMarker l = false)
    (hrawD : utf8Decode rawlines.flatten.dropLast = some rawS)
    (hparsedD : utf8Decode parsedlines.flatten.dropLast = some parsedS)
    (hhexD : utf8Decode hexlines.flatten.dropLast = some hexS)
    (hpairs : WsSepPairs hexS.data bs) :
    parse_zxing (utf8Encode "file:///x.png (format: QR_CODE, type: TEXT)\n" ++
        utf8Encode "Raw result:\n" ++ rawlines.flatten ++
        utf8Encode "Parsed result:\n" ++ parsedlines.flatten ++
        utf8Encode "Raw bits:\n" ++ hexlines.flatten ++
        utf8Encode "Found 1 result points\n") =
      .ok ⟨some "file:///x.png", some "QR_CODE", some "TEXT", some rawS, some parsedS,
        some bs, some []⟩ ∧
    parse_zxing (utf8Encode "file:///x.png (format: QR_CODE, type: TEXT)\n" ++
        utf8Encode "Raw result:\n" ++ rawlines.flatten ++
        utf8Encode "Parsed result:\n" ++ parsedlines.flatten ++
        utf8Encode "Found 1 result points\n") =
      .ok ⟨some "file:///x.png", some "QR_CODE", some "TEXT", some rawS, some parsedS,
        some [], some []⟩ ∧
    parse_zxing (utf8Encode ("file:///x.png (format: QR_CODE, type: TEXT)\n" ++
        "Raw result:\nx\nParsed result:\nx\nRaw bits:\nzz\nFound 1 result points\n")) =
      .error .valueError := by
  have hfh : fromhex hexS = some bs := fromhexChars_of_wsSepPairs hexS.data bs hpairs
  refine ⟨?_, ?_, by rfl⟩
  · have hsplit : splitlinesKeep (utf8Encode "file:///x.png (format: QR_CODE, type: TEXT)\n" ++
        (utf8Encode "Raw result:\n" ++ (rawlines.flatten ++
        (utf8Encode "Parsed result:\n" ++ (parsedlines.flatten ++
        (utf8Encode "Raw bits:\n" ++ (hexlines.flatten ++
        utf8Encode "Found 1 result points\n"))))))) =
        utf8Encode "file:///x.png (format: QR_CODE, type: TEXT)\n" ::
          utf8Encode "Raw result:\n" ::
          (rawlines ++ utf8Encode "Parsed result:\n" ::
            (parsedlines ++ utf8Encode "Raw bits:\n" ::
              (hexlines ++ [utf8Encode "Found 1 result points\n"]))) := by
      rw [splitlinesKeep_line (utf8Encode "file:///x.png (format: QR_CODE, type: TEXT)\n")
            (by decide),
          splitlinesKeep_line (utf8Encode "Raw result:\n") (by decide),
          splitlinesKeep_flatten rawlines (fun l hl => (hraw l hl).1),
          splitlinesKeep_line (utf8Encode "Parsed result:\n") (by decide),
          splitlinesKeep_flatten parsedlines (fun l hl => (hparsed l hl).1),
          splitlinesKeep_line (utf8Encode "Raw bits:\n") (by decide),
          splitlinesKeep_flatten hexlines (fun l hl => (hhex l hl).1),
          show splitlinesKeep (utf8Encode "Found 1 result points\n") =
            [utf8Encode "Found 1 result points\n"] from by decide]
    have hrun : zxRun zxInit
        (utf8Encode "file:///x.png (format: QR_CODE, type: TEXT)\n" ::
          utf8Encode "Raw result:\n" ::
          (rawlines ++ utf8Encode "Parsed result:\n" ::
            (parsedlines ++ utf8Encode "Raw bits:\n" ::
              (hexlines ++ [utf8Encode "Found 1 result points\n"])))) =
        .cont ⟨.POINTS, some "file:///x.png", some "QR_CODE", some "TEXT",
          rawlines.flatten, parsedlines.flatten, hexlines.flatten, []⟩ := by
      rw [zxRun_cons_cont zxInit
            ⟨.UNKNOWN, some "file:///x.png", some "QR_CODE", some "TEXT", [], [], [], []⟩
            _ _ (by decide),
          zxRun_cons_cont _
            ⟨.RAW, some "file:///x.png", some "QR_CODE", some "TEXT", [], [], [], []⟩
            _ _ (by decide),
          zxRun_append_cont rawlines _ _
            ⟨.RAW, some "file:///x.png", some "QR_CODE", some "TEXT",
              rawlines.flatten, [], [], []⟩
            (zxRun_raw_accum rawlines (fun l hl => (hraw l hl).2) _ rfl),
          zxRun_cons_cont _
            ⟨.PARSED, some "file:///x.png", some "QR_CODE", some "TEXT",
              rawlines.flatten, [], [], []⟩
            _ _ (zxStep_parsed_marker _ rfl),
          zxRun_append_cont parsedlines _ _
            ⟨.PARSED, some "file:///x.png", some "QR_CODE", some "TEXT",
              rawlines.flatten, parsedlines.flatten, [], []⟩
            (zxRun_parsed_accum parsedlines
              (fun l hl => ⟨(hparsed l hl).2.1, (hparsed l hl).2.2⟩) _ rfl),
          zxRun_cons_cont _
            ⟨.RAW_BITS, some "file:///x.png", some "QR_CODE", some "TEXT",
              rawlines.flatten, parsedlines.flatten, [], []⟩
            _ _ (zxStep_rawbits_marker _ rfl),
          zxRun_append_cont hexlines _ _
            ⟨.RAW_BITS, some "file:///x.png", some "QR_CODE", some "TEXT",
              rawlines.flatten, parsedlines.flatten, hexlines.flatten, []⟩
            (zxRun_rawbits_accum hexlines (fun l hl => (hhex l hl).2) _ rfl),
          zxRun_cons_cont _
            ⟨.POINTS, some "file:///x.png", some "QR_CODE", some "TEXT",
              rawlines.flatten, parsedlines.flatten, hexlines.flatten, []⟩
            _ _ (zxStep_points_marker_rawbits _ rfl)]
      rfl
    simp only [parse_zxing, List.append_assoc, hsplit, hrun]
    exact zxFinal_eval _ rawS parsedS hexS bs hparsedD hrawD hhexD hfh
  · have hsplit : splitlinesKeep (utf8Encode "file:///x.png (format: QR_CODE, type: TEXT)\n" ++
        (utf8Encode "Raw result:\n" ++ (rawlines.flatten ++
        (utf8Encode "Parsed result:\n" ++ (parsedlines.flatten ++
        utf8Encode "Found 1 result points\n"))))) =
        utf8Encode "file:///x.png (format: QR_CODE, type: TEXT)\n" ::
          utf8Encode "Raw result:\n" ::
          (rawlines ++ utf8Encode "Parsed result:\n" ::
            (parsedlines ++ [utf8Encode "Found 1 result points\n"])) := by
      rw [splitlinesKeep_line (utf8Encode "file:///x.png (format: QR_CODE, type: TEXT)\n")
            (by decide),
          splitlinesKeep_line (utf8Encode "Raw result:\n") (by decide),
          splitlinesKeep_flatten rawlines (fun l hl => (hraw l hl).1),
          splitlinesKeep_line (utf8Encode "Parsed result:\n") (by decide),
          splitlinesKeep_flatten parsedlines (fun l hl => (hparsed l hl).1),
          show splitlinesKeep (utf8Encode "Found 1 result points\n") =
            [utf8Encode "Found 1 result points\n"] from by decide]
    have hrun : zxRun zxInit
        (utf8Encode "file:///x.png (format: QR_CODE, type: TEXT)\n" ::
          utf8Encode "Raw result:\n" ::
          (rawlines ++ utf8Encode "Parsed result:\n" ::
            (parsedlines ++ [utf8Encode "Found 1 result points\n"]))) =
        .cont ⟨.POINTS, some "file:///x.png", some "QR_CODE", some "TEXT",
          rawlines.flatten, parsedlines.flatten, [], []⟩ := by
      rw [zxRun_cons_cont zxInit
            ⟨.UNKNOWN, some "file:///x.png", some "QR_CODE", some "TEXT", [], [], [], []⟩
            _ _ (by decide),
          zxRun_cons_cont _
            ⟨.RAW, some "file:///x.png", some "QR_CODE", some "TEXT", [], [], [], []⟩
            _ _ (by decide),
          zxRun_append_cont rawlines _ _
            ⟨.RAW, some "file:///x.png", some "QR_CODE", some "TEXT",
              rawlines.flatten, [], [], []⟩
            (zxRun_raw_accum rawlines (fun l hl => (hraw l hl).2) _ rfl),
          zxRun_cons_cont _
            ⟨.PARSED, some "file:///x.png", some "QR_CODE", some "TEXT",
              rawlines.flatten, [], [], []⟩
            _ _ (zxStep_parsed_marker _ rfl),
          zxRun_append_cont parsedlines _ _
            ⟨.PARSED, some "file:///x.png", some "QR_CODE", some "TEXT",
              rawlines.flatten, parsedlines.flatten, [], []⟩
            (zxRun_parsed_accum parsedlines
              (fun l hl => ⟨(hparsed l hl).2.1, (hparsed l hl).2.2⟩) _ rfl),
          zxRun_cons_cont _
            ⟨.POINTS, some "file:///x.png", some "QR_CODE", some "TEXT",
              rawlines.flatten, parsedlines.flatten, [], []⟩
            _ _ (zxStep_points_marker_parsed _ rfl)]
      rfl
    simp only [parse_zxing, List.append_assoc, hsplit, hrun]
    exact zxFinal_eval _ rawS parsedS "" [] hparsedD hrawD rfl rfl

/-- Witness for C9 at a concrete block with two whitespace-separated
raw-bits lines. -/
theorem c9_raw_bits_exact_witness :
    (∀ l ∈ [utf8Encode "hello\n"], IsNL l ∧ (utf8Encode "Parsed result:").isPrefixOf l = false) ∧
    (∀ l ∈ [utf8Encode "world\n"], IsNL l ∧ (utf8Encode "Raw bits:").isPrefixOf l = false ∧
      matchesPointsMarker l = false) ∧
    (∀ l ∈ [utf8Encode "f0 0f\n", utf8Encode "ca fe\n"], IsNL l ∧ matchesPointsMarker l = false) ∧
    utf8Decode ([utf8Encode "hello\n"] : List (List Nat)).flatten.dropLast = some "hello" ∧
    utf8Decode ([utf8Encode "world\n"] : List (List Nat)).flatten.dropLast = some "world" ∧
    utf8Decode ([utf8Encode "f0 0f\n", utf8Encode "ca fe\n"] : List (List Nat)).flatten.dropLast =
      some "f0 0f\nca fe" ∧
    parse_zxing (utf8Encode "file:///x.png (format: QR_CODE, type: TEXT)\n" ++
        utf8Encode "Raw result:\n" ++ ([utf8Encode "hello\n"] : List (List Nat)).flatten ++
        utf8Encode "Parsed result:\n" ++ ([utf8Encode "world\n"] : List (List Nat)).flatten ++
        utf8Encode "Raw bits:\n" ++
        ([utf8Encode "f0 0f\n", utf8Encode "ca fe\n"] : List (List Nat)).flatten ++
        utf8Encode "Found 1 result points\n") =
      .ok ⟨some "file:///x.png", some "QR_CODE", some "TEXT", some "hello", some "world",
        some [240, 15, 202, 254], some []⟩ :=
  ⟨by decide, by decide, by decide, by decide, by decide, by decide,
    (c9_raw_bits_exact [utf8Encode "hello\n"] [utf8Encode "world\n"]
      [utf8Encode "f0 0f\n", utf8Encode "ca fe\n"]
      "hello" "world" "f0 0f\nca fe" [240, 15, 202, 254]
      (by decide) (by decide) (by decide) (by decide) (by decide) (by decide)
      (WsSepPairs.pair (Char.ofNat 102) (Char.ofNat 48) (by decide) (by decide)
        (WsSepPairs.ws (Char.ofNat 32) (by decide)
          (WsSepPairs.pair (Char.ofNat 48) (Char.ofNat 102) (by decide) (by decide)
            (WsSepPairs.ws (Char.ofNat 10) (by decide)
              (WsSepPairs.pair (Char.ofNat 99) (Char.ofNat 97) (by decide) (by decide)
                (WsSepPairs.ws (Char.ofNat 32) (by decide)
                  (WsSepPairs.pair (Char.ofNat 102) (Char.ofNat 101) (by decide) (by decide)
                    WsSepPairs.nil)))))))).1⟩

/-- Witness for C2 amended: with one parsed result for the only requested
file, reassembly succeeds with a one-element sequence. -/
theorem c2_amended_unmatched_dropped_witness :
    ([(⟨some "file:///a.png", none, none, none, none, none, none⟩ : BarCode)] : List BarCode).length
      = (["file:///a.png"] : List String).length :=
  (c2_amended_unmatched_dropped
      [⟨some "file:///a.png", none, none, none, none, none, none⟩] ["file:///a.png"]).2
    [⟨some "file:///a.png", none, none, none, none, none, none⟩] rfl

end Zxing
